import Mathlib

/-!
Verification of the stream-acquisition and framing pipeline of
`serial_tool.py` (class `SerialCommunicator`).

The Python source is shallowly embedded: bytes are `Nat` (always < 256 in
the source, since they come from `bytes` objects), text is `List Char`,
wall-clock instants are `ℚ`, and every stateful method becomes a pure
function from an explicit state to a new state plus its observable
outputs.  Console/log output of a flushed packet is modelled as a list of
`SinkEvent`s; the downstream formatting done by `_print_received_data`
(timestamps, ANSI colours, keyword highlighting) is a pure function of the
event and is not re-modelled here.
-/

set_option maxRecDepth 4000

namespace SerialTool

/-! ### Incremental UTF-8 decoding with errors="replace"

`SerialCommunicator._create_decoder` builds
`codecs.getincrementaldecoder(encoding)("replace")`.  With the
`"replace"` error handler the decoder never raises `UnicodeDecodeError`:
each maximal invalid subpart of the input is replaced by U+FFFD
(Python follows the W3C/WHATWG "maximal subpart" substitution for UTF-8).
The decoder state below is the standard WHATWG UTF-8 decoder state. -/

structure Utf8State where
  cp : Nat
  needed : Nat
  seen : Nat
  lo : Nat
  hi : Nat
deriving Repr, DecidableEq

def utf8Init : Utf8State := ⟨0, 0, 0, 0x80, 0xBF⟩

def replacementChar : Char := Char.ofNat 0xFFFD

/-- Process one byte in the initial (no pending sequence) decoder state. -/
def utf8Start (b : Nat) : Utf8State × List Char :=
  if b ≤ 0x7F then (utf8Init, [Char.ofNat b])
  else if 0xC2 ≤ b ∧ b ≤ 0xDF then
    ({ cp := b &&& 0x1F, needed := 1, seen := 0, lo := 0x80, hi := 0xBF }, [])
  else if 0xE0 ≤ b ∧ b ≤ 0xEF then
    ({ cp := b &&& 0x0F, needed := 2, seen := 0,
       lo := if b = 0xE0 then 0xA0 else 0x80,
       hi := if b = 0xED then 0x9F else 0xBF }, [])
  else if 0xF0 ≤ b ∧ b ≤ 0xF4 then
    ({ cp := b &&& 0x07, needed := 3, seen := 0,
       lo := if b = 0xF0 then 0x90 else 0x80,
       hi := if b = 0xF4 then 0x8F else 0xBF }, [])
  else (utf8Init, [replacementChar])

/-- Process one byte in an arbitrary decoder state.  An invalid
continuation byte emits U+FFFD for the pending subpart and the byte is
reconsidered in the initial state. -/
def utf8Step (s : Utf8State) (b : Nat) : Utf8State × List Char :=
  if s.needed = 0 then utf8Start b
  else if b < s.lo ∨ s.hi < b then
    let (s2, cs) := utf8Start b
    (s2, replacementChar :: cs)
  else
    let cp := s.cp * 64 + (b &&& 0x3F)
    if s.seen + 1 = s.needed then (utf8Init, [Char.ofNat cp])
    else ({ cp := cp, needed := s.needed, seen := s.seen + 1, lo := 0x80, hi := 0xBF }, [])

def utf8Run (s : Utf8State) : List Nat → Utf8State × List Char
  | [] => (s, [])
  | b :: rest =>
    let (s2, cs) := utf8Step s b
    let (s3, cs2) := utf8Run s2 rest
    (s3, cs ++ cs2)

/-- Model of `decoder.decode(bytes, final=True)` for the UTF-8 decoder
starting from decoder state `d`: a truncated final sequence yields one
U+FFFD (errors="replace", so this is total and never raises). -/
def utf8DecodeFinal (d : Utf8State) (bs : List Nat) : List Char :=
  let (s, cs) := utf8Run d bs
  if s.needed = 0 then cs else cs ++ [replacementChar]

/-- Model of ASCII decoding with errors="replace": bytes above 0x7F become U+FFFD. -/
def asciiDecodeReplace (bs : List Nat) : List Char :=
  bs.map (fun b => if b ≤ 0x7F then Char.ofNat b else replacementChar)

/-- Model of Latin-1 / ISO-8859-1 decoding: every byte maps to the code point of
the same value, so decoding is total and never replaces anything. -/
def latin1Decode (bs : List Nat) : List Char := bs.map Char.ofNat

/-- Code unit of a UTF-16 byte pair, little- or big-endian. -/
def utf16Unit (le : Bool) (b0 b1 : Nat) : Nat :=
  if le then b0 + 256 * b1 else 256 * b0 + b1

/-- Split a byte sequence into its 16-bit code units plus a flag for a
lone trailing byte. -/
def utf16ToUnits (le : Bool) : List Nat → List Nat × Bool
  | [] => ([], false)
  | [_] => ([], true)
  | b0 :: b1 :: rest =>
    let r := utf16ToUnits le rest
    (utf16Unit le b0 b1 :: r.1, r.2)

/-- Pair surrogate code units, carrying an unpaired high surrogate in
`pending`.  Error handling follows CPython's utf-16 error spans: a high
surrogate followed by a non-low-surrogate unit ("illegal UTF-16
surrogate") is one U+FFFD for that surrogate, the next unit reprocessed; a
lone low surrogate ("illegal encoding") is one U+FFFD; a high surrogate at
the end ("unexpected end of data") is one U+FFFD covering all remaining
bytes, a lone trailing byte included; otherwise a lone trailing byte
("truncated data") is one U+FFFD of its own. -/
def utf16Pair (trailing : Bool) (pending : Option Nat) : List Nat → List Char
  | [] =>
    match pending with
    | some _ => [replacementChar]
    | none => if trailing then [replacementChar] else []
  | u :: rest =>
    match pending with
    | some hi =>
      if 0xDC00 ≤ u ∧ u ≤ 0xDFFF then
        Char.ofNat (0x10000 + (hi - 0xD800) * 0x400 + (u - 0xDC00)) ::
          utf16Pair trailing none rest
      else if u < 0xD800 ∨ 0xDFFF < u then
        replacementChar :: Char.ofNat u :: utf16Pair trailing none rest
      else replacementChar :: utf16Pair trailing (some u) rest
    | none =>
      if u < 0xD800 ∨ 0xDFFF < u then Char.ofNat u :: utf16Pair trailing none rest
      else if u ≤ 0xDBFF then utf16Pair trailing (some u) rest
      else replacementChar :: utf16Pair trailing none rest

/-- Model of Python utf-16-le / utf-16-be `decode(bytes, final=True)` with
errors="replace" (total, never raises). -/
def utf16DecodeReplace (le : Bool) (bs : List Nat) : List Char :=
  let r := utf16ToUnits le bs
  utf16Pair r.2 none r.1

/-- Encodings of `SUPPORTED_ENCODINGS` whose codecs this embedding models
faithfully.  GB2312 and GBK (stateful CJK table codecs) and plain UTF-16
(whose no-BOM byte order is platform-dependent) are outside a shallow
embedding; every theorem below whose statement depends on decoded output
assumes the active encoding is in this list. -/
def MODELLED_ENCODINGS : List String :=
  ["UTF-8", "ASCII", "Latin-1", "ISO-8859-1", "UTF-16LE", "UTF-16BE"]

/-- Model of `self.decoder.decode(bytes(buffer), final=True)` for the
active encoding.  The final branch is a placeholder for the unmodelled
codecs (GB2312, GBK, UTF-16); it is never relied on — theorems about
decoded output carry a `MODELLED_ENCODINGS` membership hypothesis. -/
def decodeWithState (enc : String) (d : Utf8State) (bs : List Nat) : List Char :=
  if enc = "ASCII" then asciiDecodeReplace bs
  else if enc = "Latin-1" ∨ enc = "ISO-8859-1" then latin1Decode bs
  else if enc = "UTF-16LE" then utf16DecodeReplace true bs
  else if enc = "UTF-16BE" then utf16DecodeReplace false bs
  else if enc = "UTF-8" then utf8DecodeFinal d bs
  else []

/-! ### Python str.strip() -/

/-- Characters for which Python `str.isspace()` is true (the set stripped
by `str.strip()` with no argument). -/
def isPySpace (c : Char) : Bool :=
  let n := c.toNat
  (0x09 ≤ n && n ≤ 0x0D) || (0x1C ≤ n && n ≤ 0x20) || n = 0x85 || n = 0xA0 ||
  n = 0x1680 || (0x2000 ≤ n && n ≤ 0x200A) || n = 0x2028 || n = 0x2029 ||
  n = 0x202F || n = 0x205F || n = 0x3000

/-- Model of Python `text.strip()`: remove leading and trailing whitespace. -/
def pyStripList (cs : List Char) : List Char :=
  ((cs.dropWhile isPySpace).reverse.dropWhile isPySpace).reverse

/-! ### Hex rendering

`hex_str = ' '.join([f'\x7bb:02X\x7d' for b in self.receive_buffer])`:
two uppercase hex digits per byte, space-separated. -/

def hexDigitChar (n : Nat) : Char :=
  if n < 10 then Char.ofNat (0x30 + n) else Char.ofNat (0x41 + (n - 10))

def byteHex (b : Nat) : List Char := [hexDigitChar (b / 16 % 16), hexDigitChar (b % 16)]

def hexRender (bs : List Nat) : List Char :=
  ((bs.map byteHex).intersperse [' ']).flatten

/-! ### Modbus frame inspector (`_parse_modbus`) -/

/-- Structured content of the summary string `_parse_modbus` builds; `none`
models the empty-string return for frames shorter than 8 bytes.  The
`except` clause of the source is unreachable here: every index it reads
(0..6) exists once the length guard has passed. -/
inductive ModbusMsg where
  | readRequest (slave fc addr qty : Nat)
  | writeSingle (slave fc addr value : Nat)
  | writeMulti (slave fc addr qty byteCount : Nat)
  | generic (slave fc : Nat)
deriving Repr, DecidableEq

/-- Model of `MODBUS_FUNCTIONS.get(function_code, f"未知功能码 ...")`. -/
def modbusFunctionName (fc : Nat) : List Char :=
  if fc = 1 then "Read Coils".toList
  else if fc = 2 then "Read Discrete Inputs".toList
  else if fc = 3 then "Read Holding Registers".toList
  else if fc = 4 then "Read Input Registers".toList
  else if fc = 5 then "Write Single Coil".toList
  else if fc = 6 then "Write Single Register".toList
  else if fc = 15 then "Write Multiple Coils".toList
  else if fc = 16 then "Write Multiple Registers".toList
  else "未知功能码 ".toList ++ (toString fc).toList

/-- Model of `SerialCommunicator._parse_modbus`. -/
def parse_modbus (data : List Nat) : Option ModbusMsg :=
  match data with
  | s :: fc :: a1 :: a0 :: q1 :: q0 :: bc :: _ :: _ =>
    if fc = 1 ∨ fc = 2 ∨ fc = 3 ∨ fc = 4 then
      some (.readRequest s fc (a1 * 256 + a0) (q1 * 256 + q0))
    else if fc = 5 ∨ fc = 6 then
      some (.writeSingle s fc (a1 * 256 + a0) (q1 * 256 + q0))
    else if fc = 15 ∨ fc = 16 then
      some (.writeMulti s fc (a1 * 256 + a0) (q1 * 256 + q0) bc)
    else some (.generic s fc)
  | _ => none

/-! ### Communicator state and the flush operation -/

/-- The fields of `SerialCommunicator.__init__` that the framing/flush
pipeline reads or writes.  `decoder` is the incremental decoder state of
`EncodingState` (fresh after every `decoder.reset()`). -/
structure CommState where
  receive_buffer : List Nat
  current_encoding : String
  decoder : Utf8State
  hex_display : Bool
  modbus_parse_enabled : Bool
  packet_timeout : ℚ
  keyword_filters : List (String × Nat)
deriving Repr, DecidableEq

/-- Defaults of `__init__` (DEFAULT_HEX_DISPLAY = False, DEFAULT_ENCODING
= UTF-8, DEFAULT_PACKET_TIMEOUT = 0.01, DEFAULT_MODBUS_PARSE_ENABLED =
False, DEFAULT_KEYWORD_FILTERS = empty). -/
def initState : CommState :=
  { receive_buffer := []
    current_encoding := "UTF-8"
    decoder := utf8Init
    hex_display := false
    modbus_parse_enabled := false
    packet_timeout := 1 / 100
    keyword_filters := [] }

/-- One console/log emission of a flush, before `_print_received_data`
prepends timestamps/colours. -/
inductive SinkEvent where
  | textOut (cs : List Char)
  | hexOut (cs : List Char)
  | modbusOut (m : ModbusMsg)
deriving Repr, DecidableEq

structure FlushOut where
  state : CommState
  raw : Option (List Nat)
  events : List SinkEvent
deriving Repr, DecidableEq

/-- Model of `SerialCommunicator._process_receive_buffer`.  `raw` is the
`raw_data = bytes(self.receive_buffer)` snapshot (`none` when the early
return on an empty buffer fires).  In text mode the decoder was built with
errors="replace", so `decoder.decode` is total and the
`except UnicodeDecodeError` hex fallback of the source is unreachable;
the decode result is stripped and printed only when non-empty.  The buffer
is cleared and the decoder reset at the end of every non-empty flush. -/
def processReceiveBuffer (st : CommState) : FlushOut :=
  if st.receive_buffer = [] then ⟨st, none, []⟩
  else
    let raw := st.receive_buffer
    let modbusEvents : List SinkEvent :=
      if st.modbus_parse_enabled then
        match parse_modbus raw with
        | some m => [.modbusOut m]
        | none => []
      else []
    let dataEvents : List SinkEvent :=
      if st.hex_display then [.hexOut (hexRender raw)]
      else
        let text := decodeWithState st.current_encoding st.decoder raw
        let stripped := pyStripList text
        if stripped = [] then [] else [.textOut stripped]
    ⟨{ st with receive_buffer := [], decoder := utf8Init }, some raw,
      modbusEvents ++ dataEvents⟩

/-! ### Configuration setters -/

def SUPPORTED_ENCODINGS : List String :=
  ["UTF-8", "GB2312", "GBK", "ASCII", "Latin-1", "UTF-16", "UTF-16BE",
   "UTF-16LE", "ISO-8859-1"]

/-- Model of `SerialCommunicator.set_encoding`: an unsupported name is
rejected (prints an error and returns False) before any state is touched;
a supported name replaces the encoding and builds a fresh decoder. -/
def set_encoding (st : CommState) (enc : String) : CommState × Bool :=
  if enc ∉ SUPPORTED_ENCODINGS then (st, false)
  else ({ st with current_encoding := enc, decoder := utf8Init }, true)

/-- Model of `SerialCommunicator.set_packet_timeout`: the source assigns
`self.packet_timeout = timeout` unconditionally — there is no validation
of the value. -/
def set_packet_timeout (st : CommState) (t : ℚ) : CommState :=
  { st with packet_timeout := t }

/-! ### Keyword filter table

`self.keyword_filters` is a Python dict keyword → colour index; dicts
preserve insertion order, so it is embedded as an association list with
unique keys, new entries appended at the end. -/

def KEYWORD_COLORS_LENGTH : Nat := 7

def filterKeys (fs : List (String × Nat)) : List String := fs.map Prod.fst

/-- Model of `SerialCommunicator.add_filter_keyword`: empty keywords and
duplicates are rejected; otherwise the colour index is
`len(self.keyword_filters) % len(KEYWORD_COLORS)` at insertion time. -/
def add_filter_keyword (st : CommState) (kw : String) : CommState × Bool :=
  if kw = "" then (st, false)
  else if kw ∈ filterKeys st.keyword_filters then (st, false)
  else
    ({ st with keyword_filters :=
        st.keyword_filters ++
          [(kw, st.keyword_filters.length % KEYWORD_COLORS_LENGTH)] }, true)

/-- Model of `SerialCommunicator.remove_filter_keyword`: `del` removes the
one entry with that key (keys are unique) and touches nothing else. -/
def remove_filter_keyword (st : CommState) (kw : String) : CommState × Bool :=
  if kw ∈ filterKeys st.keyword_filters then
    ({ st with keyword_filters := st.keyword_filters.filter (fun p => p.1 ≠ kw) }, true)
  else (st, false)

/-! ### Connection with retry (`connect`) -/

/-- Observable outcome of one `connect` call: `result` is the Python
return value (`none` is Python `None`, reached when the `for` loop ends
without returning), `attempts` counts `serial.Serial(...)` constructions,
`sleeps` counts `time.sleep(delay)` calls, `prints` counts `print`
calls. -/
structure ConnectOut where
  result : Option Bool
  attempts : Nat
  sleeps : Nat
  prints : Nat
deriving Repr, DecidableEq

/-- Body of `for attempt in range(retries)` in `connect`, iterating over
the remaining attempt indices.  `succeed a` tells whether the `a`-th
`serial.Serial` construction succeeds or raises `SerialException`. -/
def connectIter (succeed : Nat → Bool) (retries : Nat) : List Nat → ConnectOut
  | [] => ⟨none, 0, 0, 0⟩
  | a :: rest =>
    if succeed a then ⟨some true, 1, 0, 1⟩
    else if a < retries - 1 then
      let r := connectIter succeed retries rest
      ⟨r.result, r.attempts + 1, r.sleeps + 1, r.prints + 1⟩
    else ⟨some false, 1, 0, 1⟩

/-- Model of `SerialCommunicator.connect(retries, delay)`.  `retries` is a
Python int, so it may be negative; `range(retries)` is then empty and the
function falls through to an implicit `return None`. -/
def connect (succeed : Nat → Bool) (retries : Int) : ConnectOut :=
  connectIter succeed retries.toNat (List.range retries.toNat)

/-! ### Relay: the bounded queue between `_receive_data` and `_process_data`

`self.data_queue = queue.Queue(maxsize=1000)` (line 189).  `_receive_data`
offers each nonempty read; on `queue.Full` it evicts one item with
`get_nowait()` (tolerating `queue.Empty`) and retries the `put` once.
`_process_data` takes with `get(timeout=0.05)`.  The two threads
synchronise only through the queue, so their interleaving is a sequence of
atomic offer/take events. -/

def RELAY_CAPACITY : Nat := 1000

inductive RelayEv where
  | offer (c : List Nat)
  | take
deriving Repr, DecidableEq

/-- Queue contents plus event counters: `offered` counts chunks offered by
the reader, `taken` counts chunks the framer got, `evicted` counts
`get_nowait()` evictions on overflow. -/
structure RelayState where
  q : List (List Nat)
  offered : Nat
  taken : Nat
  evicted : Nat
deriving Repr, DecidableEq

def relayInit : RelayState := ⟨[], 0, 0, 0⟩

/-- One atomic queue event.  On `offer` with a full queue the oldest chunk
is removed and the put is retried once (it now succeeds: the queue holds
capacity − 1 items).  On `take` with an empty queue `get` times out and
nothing changes. -/
def relayStep (s : RelayState) : RelayEv → RelayState
  | .offer c =>
    if s.q.length < RELAY_CAPACITY then
      { s with q := s.q ++ [c], offered := s.offered + 1 }
    else
      { s with q := s.q.tail ++ [c], offered := s.offered + 1,
               evicted := s.evicted + 1 }
  | .take =>
    match s.q with
    | [] => s
    | _ :: t => { s with q := t, taken := s.taken + 1 }

def relayRun (evs : List RelayEv) : RelayState := evs.foldl relayStep relayInit

/-! ### Framer loop (`_process_data`)

Each loop iteration either gets a chunk from the queue or times out after
0.05 s.  Wall-clock readings are made explicit: on a data iteration `t1`
is the `time.time()` stored into `last_data_time` right after the append,
`t2` the reading of the flush check, and `t3` the reading stored after a
flush; on an idle (queue-empty) iteration only `t2` and `t3` occur. -/

inductive LoopIn where
  | data (chunk : List Nat) (t1 t2 t3 : ℚ)
  | idle (t2 t3 : ℚ)

/-- One iteration of the `while self.running` loop of `_process_data`,
acting on the communicator state and `last_data_time`, and returning the
raw packets flushed during the iteration. -/
def processStep (st : CommState) (last : ℚ) : LoopIn → CommState × ℚ × List (List Nat)
  | .data c t1 t2 t3 =>
    let st1 := { st with receive_buffer := st.receive_buffer ++ c }
    if t2 - t1 > st1.packet_timeout then
      let r := processReceiveBuffer st1
      (r.state, t3, r.raw.toList)
    else (st1, t1, [])
  | .idle t2 t3 =>
    if st.receive_buffer ≠ [] ∧ t2 - last > st.packet_timeout then
      let r := processReceiveBuffer st
      (r.state, t3, r.raw.toList)
    else (st, last, [])

/-- Run of the `_process_data` loop over a list of iterations, collecting
all flushed raw packets in order. -/
def processTrace (st : CommState) (last : ℚ) : List LoopIn → CommState × ℚ × List (List Nat)
  | [] => (st, last, [])
  | i :: rest =>
    let r := processStep st last i
    let r2 := processTrace r.1 r.2.1 rest
    (r2.1, r2.2.1, r.2.2 ++ r2.2.2)

/-- Concatenation of all chunks delivered by a list of loop iterations. -/
def concatChunks : List LoopIn → List Nat
  | [] => []
  | .data c _ _ _ :: rest => c ++ concatChunks rest
  | .idle _ _ :: rest => concatChunks rest

/-- Every check `time.time() - last_data_time > packet_timeout` performed
during these iterations comes out ≤ `pt` — the formal content of "every
inter-chunk arrival gap is smaller than the packet timeout" (plus ideal
scheduling: the check right after an append happens within the timeout of
the append). -/
def Quiet (pt : ℚ) : ℚ → List LoopIn → Prop
  | _, [] => True
  | _, .data _ t1 t2 _ :: rest => t2 - t1 ≤ pt ∧ Quiet pt t1 rest
  | last, .idle t2 _ :: rest => t2 - last ≤ pt ∧ Quiet pt last rest

/-- Value of `last_data_time` after a quiet (flush-free) run. -/
def lastAfterQuiet : ℚ → List LoopIn → ℚ
  | last, [] => last
  | _, .data _ t1 _ _ :: rest => lastAfterQuiet t1 rest
  | last, .idle _ _ :: rest => lastAfterQuiet last rest

/-! ## Theorems -/

/-- C8: a flush with an empty `receive_buffer` returns immediately: no
Sink event is emitted, no raw snapshot is taken, and the state (buffer and
decoder included) is unchanged. -/
theorem flush_empty_buffer_noop (st : CommState) (h : st.receive_buffer = []) :
    processReceiveBuffer st = ⟨st, none, []⟩ := by
  simp [processReceiveBuffer, h]

theorem flush_empty_buffer_noop_witness :
    initState.receive_buffer = [] ∧ processReceiveBuffer initState = ⟨initState, none, []⟩ :=
  ⟨rfl, flush_empty_buffer_noop initState rfl⟩

/-- C3 counterexample: after adding "ERROR", "WARN", "OK" (indices 0, 1, 2),
removing "WARN" and re-adding it assigns colour index 2 — the table size at
insertion — not 3 as the claim states (3 % 7 = 3 ≠ 2). -/
theorem keyword_readd_index_counterexample :
    ((add_filter_keyword (remove_filter_keyword
        (add_filter_keyword
          (add_filter_keyword
            (add_filter_keyword initState "ERROR").1 "WARN").1 "OK").1
        "WARN").1 "WARN").1).keyword_filters =
      [("ERROR", 0), ("OK", 2), ("WARN", 2)] ∧
    (2 : Nat) ≠ 3 % KEYWORD_COLORS_LENGTH := by
  decide

/-- C3 (amended): adding "ERROR", "WARN", "OK" in that order assigns colour
indices 0, 1, 2; removing "WARN" does not renumber the remaining entries
("ERROR" keeps 0, "OK" keeps 2) and preserves their order; re-adding
"WARN" appends it at the end with index `len(table) % 7 = 2` — the current
table size mod the palette size — not 1 and not 3. -/
theorem keyword_color_assignment :
    ((add_filter_keyword initState "ERROR").1).keyword_filters = [("ERROR", 0)] ∧
    ((add_filter_keyword (add_filter_keyword initState "ERROR").1
        "WARN").1).keyword_filters = [("ERROR", 0), ("WARN", 1)] ∧
    ((add_filter_keyword (add_filter_keyword
        (add_filter_keyword initState "ERROR").1 "WARN").1
        "OK").1).keyword_filters = [("ERROR", 0), ("WARN", 1), ("OK", 2)] ∧
    ((remove_filter_keyword (add_filter_keyword (add_filter_keyword
        (add_filter_keyword initState "ERROR").1 "WARN").1 "OK").1
        "WARN").1).keyword_filters = [("ERROR", 0), ("OK", 2)] ∧
    ((add_filter_keyword (remove_filter_keyword
        (add_filter_keyword (add_filter_keyword
          (add_filter_keyword initState "ERROR").1 "WARN").1 "OK").1
        "WARN").1 "WARN").1).keyword_filters =
      [("ERROR", 0), ("OK", 2), ("WARN", 2)] := by
  decide

/-- C4 counterexample: `set_packet_timeout` does not reject non-positive
values — called with −1 on the default state (timeout 1/100) it installs
−1 as the new `packet_timeout`, so the previous valid configuration is not
retained. -/
theorem packet_timeout_no_validation_counterexample :
    (set_packet_timeout initState (-1)).packet_timeout = -1 ∧
    initState.packet_timeout = 1 / 100 ∧ ((-1 : ℚ) ≠ 1 / 100) := by
  refine ⟨rfl, rfl, by norm_num⟩

/-- C4 (amended): `set_encoding` with a name outside `SUPPORTED_ENCODINGS`
returns False and leaves the entire state (encoding and decoder included)
unchanged; `set_packet_timeout`, however, performs no validation at all and
installs any value — including non-positive ones — as the new timeout. -/
theorem config_rejection_behavior (st : CommState) (enc : String) (t : ℚ)
    (henc : enc ∉ SUPPORTED_ENCODINGS) :
    set_encoding st enc = (st, false) ∧
    set_packet_timeout st t = { st with packet_timeout := t } := by
  refine ⟨?_, rfl⟩
  simp [set_encoding, henc]

theorem config_rejection_behavior_witness :
    "KOI8-R" ∉ SUPPORTED_ENCODINGS ∧
    set_encoding initState "KOI8-R" = (initState, false) ∧
    set_packet_timeout initState (-1) = { initState with packet_timeout := -1 } :=
  ⟨by decide, (config_rejection_behavior initState "KOI8-R" (-1) (by decide)).1,
    (config_rejection_behavior initState "KOI8-R" (-1) (by decide)).2⟩

/-- C5: `_parse_modbus` on `[0x01, 0x03, 0x00, 0x0A, 0x00, 0x02, x, x]`
yields the read summary for station 1, function 3 ("Read Holding
Registers"), start address 10, quantity 2, for any trailing bytes; every
input shorter than 8 bytes yields no output at all; a frame of length ≥ 8
whose function code is outside the known table yields the generic label,
never a rejection. -/
theorem modbus_inspector_spec :
    (∀ x y : Nat, parse_modbus [1, 3, 0, 10, 0, 2, x, y] =
        some (.readRequest 1 3 10 2)) ∧
    modbusFunctionName 3 = "Read Holding Registers".toList ∧
    (∀ d : List Nat, d.length < 8 → parse_modbus d = none) ∧
    (∀ s fc : Nat, ∀ r : List Nat,
      fc ∉ ([1, 2, 3, 4, 5, 6, 15, 16] : List Nat) → (s :: fc :: r).length ≥ 8 →
      parse_modbus (s :: fc :: r) = some (.generic s fc)) := by
  refine ⟨fun x y => rfl, by decide, ?_, ?_⟩
  · intro d hd
    rcases d with _ | ⟨a, _ | ⟨b, _ | ⟨c, _ | ⟨e, _ | ⟨f, _ | ⟨g, _ | ⟨i, _ | ⟨j, r⟩⟩⟩⟩⟩⟩⟩⟩ <;>
      first
        | rfl
        | (exfalso; simp [List.length] at hd; omega)
  · intro s fc r hfc hlen
    rcases r with _ | ⟨a1, _ | ⟨a0, _ | ⟨q1, _ | ⟨q0, _ | ⟨bc, _ | ⟨x, rest⟩⟩⟩⟩⟩⟩ <;>
      simp [List.length] at hlen ⊢
    have h1 : fc ≠ 1 := by rintro rfl; simp at hfc
    have h2 : fc ≠ 2 := by rintro rfl; simp at hfc
    have h3 : fc ≠ 3 := by rintro rfl; simp at hfc
    have h4 : fc ≠ 4 := by rintro rfl; simp at hfc
    have h5 : fc ≠ 5 := by rintro rfl; simp at hfc
    have h6 : fc ≠ 6 := by rintro rfl; simp at hfc
    have h15 : fc ≠ 15 := by rintro rfl; simp at hfc
    have h16 : fc ≠ 16 := by rintro rfl; simp at hfc
    simp [parse_modbus, h1, h2, h3, h4, h5, h6, h15, h16]

theorem modbus_inspector_spec_witness :
    parse_modbus [1, 3, 0, 10, 0, 2, 7, 9] = some (.readRequest 1 3 10 2) ∧
    ([0, 1, 2] : List Nat).length < 8 ∧ parse_modbus [0, 1, 2] = none ∧
    (99 : Nat) ∉ ([1, 2, 3, 4, 5, 6, 15, 16] : List Nat) ∧
    parse_modbus [2, 99, 0, 10, 0, 2, 7, 9] = some (.generic 2 99) :=
  ⟨modbus_inspector_spec.1 7 9, by decide,
    modbus_inspector_spec.2.2.1 [0, 1, 2] (by decide), by decide,
    modbus_inspector_spec.2.2.2 2 99 [0, 10, 0, 2, 7, 9] (by decide) (by decide)⟩

/-- C7: with retry count 3 and every `serial.Serial` construction failing,
`connect` makes exactly 3 open attempts, sleeps the retry delay exactly
twice (after each failed attempt except the last), prints one message per
attempt, and returns False. -/
theorem connect_three_failures (succeed : Nat → Bool)
    (hfail : ∀ a, a < 3 → succeed a = false) :
    connect succeed 3 = ⟨some false, 3, 2, 3⟩ := by
  have h0 := hfail 0 (by omega)
  have h1 := hfail 1 (by omega)
  have h2 := hfail 2 (by omega)
  simp [connect, List.range_succ, connectIter, h0, h1, h2]

theorem connect_three_failures_witness :
    connect (fun _ => false) 3 = ⟨some false, 3, 2, 3⟩ :=
  connect_three_failures (fun _ => false) (fun _ _ => rfl)

/-- C10: `connect` with a non-positive retry count runs the loop body zero
times: no open attempt is made, nothing is printed, no sleep happens, and
the Python function falls through to `return None` — a result that is
neither True nor False. -/
theorem connect_nonpositive_retries_returns_none (succeed : Nat → Bool)
    (r : Int) (hr : r ≤ 0) :
    connect succeed r = ⟨none, 0, 0, 0⟩ ∧
    (connect succeed r).result ≠ some true ∧
    (connect succeed r).result ≠ some false := by
  have hz : r.toNat = 0 := Int.toNat_of_nonpos hr
  refine ⟨?_, ?_, ?_⟩ <;> simp [connect, hz, List.range, connectIter]

theorem connect_nonpositive_retries_returns_none_witness :
    ((0 : Int) ≤ 0) ∧ connect (fun _ => true) 0 = ⟨none, 0, 0, 0⟩ :=
  ⟨le_refl 0, (connect_nonpositive_retries_returns_none (fun _ => true) 0 (le_refl 0)).1⟩

/-- C2 counterexample: the packet `[0xFF]` is invalid UTF-8 (the default
active encoding) and hex display is off, yet the flush emits a
text-rendered event containing U+FFFD — not a hex rendering of the
bytes.  The decoder was built with errors="replace", so decoding never
raises and the hex fallback branch never runs. -/
theorem invalid_bytes_text_not_hex_counterexample :
    (processReceiveBuffer { initState with receive_buffer := [0xFF] }).events =
      [SinkEvent.textOut [replacementChar]] ∧
    (processReceiveBuffer { initState with receive_buffer := [0xFF] }).events ≠
      [SinkEvent.hexOut (hexRender [0xFF])] := by
  decide

/-- C2 (amended): with hex display off (and the Modbus inspector off), for
any modelled active encoding, a flush of any non-empty packet never raises
and emits at most one Sink event: the text rendering of the
replace-decoded, stripped packet — with invalid byte sequences shown as
U+FFFD replacement characters rather than a hex rendering — or no event at
all when the decoded text strips to empty.  The raw packet snapshot is
always taken, and the buffer is cleared and the decoder reset. -/
theorem flush_invalid_bytes_behavior (st : CommState)
    (hne : st.receive_buffer ≠ []) (hhex : st.hex_display = false)
    (hmb : st.modbus_parse_enabled = false)
    ( _hmod : st.current_encoding ∈ MODELLED_ENCODINGS) :
    (processReceiveBuffer st).events =
      (if pyStripList (decodeWithState st.current_encoding st.decoder st.receive_buffer) = []
       then []
       else [SinkEvent.textOut (pyStripList
              (decodeWithState st.current_encoding st.decoder st.receive_buffer))]) ∧
    (processReceiveBuffer st).raw = some st.receive_buffer ∧
    (processReceiveBuffer st).state =
      { st with receive_buffer := [], decoder := utf8Init } := by
  refine ⟨?_, ?_, ?_⟩ <;> simp [processReceiveBuffer, hne, hhex, hmb]

theorem flush_invalid_bytes_behavior_witness :
    ({ initState with receive_buffer := [0xFF] } : CommState).receive_buffer ≠ [] ∧
    "UTF-8" ∈ MODELLED_ENCODINGS ∧
    (processReceiveBuffer { initState with receive_buffer := [0xFF] }).raw =
      some [0xFF] :=
  ⟨by decide, by decide,
    (flush_invalid_bytes_behavior { initState with receive_buffer := [0xFF] }
      (by decide) rfl rfl (by decide)).2.1⟩

/-- Helper: Python `text.strip()` of an all-whitespace string is empty. -/
theorem pyStripList_eq_nil_of_all_space (cs : List Char) (h : cs.all isPySpace) :
    pyStripList cs = [] := by
  have h1 : cs.dropWhile isPySpace = [] := by
    rw [List.dropWhile_eq_nil_iff]
    intro x hx
    exact List.all_eq_true.mp h x hx
  simp [pyStripList, h1]

/-- C9 counterexample: with the Modbus inspector enabled, a packet of
eight 0x20 bytes decodes (UTF-8) to pure whitespace — the claim's
hypothesis — yet the flush does emit a Sink event: the Modbus summary line
for station 0x20 with unknown function code 0x20.  "No Sink event at all"
is therefore false on Modbus-enabled states. -/
theorem whitespace_flush_modbus_event_counterexample :
    ((decodeWithState "UTF-8" utf8Init
        [0x20, 0x20, 0x20, 0x20, 0x20, 0x20, 0x20, 0x20]).all isPySpace = true) ∧
    (processReceiveBuffer { initState with
        receive_buffer := [0x20, 0x20, 0x20, 0x20, 0x20, 0x20, 0x20, 0x20],
        modbus_parse_enabled := true }).events =
      [SinkEvent.modbusOut (.generic 0x20 0x20)] ∧
    ([SinkEvent.modbusOut (.generic 0x20 0x20)] : List SinkEvent) ≠ [] := by
  decide

/-- C9 (amended): in text display mode with a modelled active encoding, a
non-empty packet whose replace-decoded text consists only of whitespace
never produces a text or hex event — the stripped text is empty — and with
the Modbus inspector disabled (the default) it produces no Sink event at
all; with the inspector enabled only its summary line can appear.  In
every case the packet buffer is cleared and the decoder reset, so the
bytes themselves are silently discarded. -/
theorem whitespace_only_flush_silent (st : CommState)
    (hne : st.receive_buffer ≠ []) (hhex : st.hex_display = false)
    ( _hmod : st.current_encoding ∈ MODELLED_ENCODINGS)
    (hws : (decodeWithState st.current_encoding st.decoder st.receive_buffer).all isPySpace) :
    (processReceiveBuffer st).events =
      (if st.modbus_parse_enabled then
        (match parse_modbus st.receive_buffer with
         | some m => [SinkEvent.modbusOut m]
         | none => []) else []) ∧
    (st.modbus_parse_enabled = false → (processReceiveBuffer st).events = []) ∧
    (processReceiveBuffer st).state =
      { st with receive_buffer := [], decoder := utf8Init } := by
  have hstrip := pyStripList_eq_nil_of_all_space _ hws
  refine ⟨?_, ?_, ?_⟩
  · simp [processReceiveBuffer, hne, hhex, hstrip]
  · intro hmb
    simp [processReceiveBuffer, hne, hhex, hmb, hstrip]
  · simp [processReceiveBuffer, hne, hhex, hstrip]

theorem whitespace_only_flush_silent_witness :
    ((decodeWithState "UTF-8" utf8Init [0x20, 0x09]).all isPySpace = true) ∧
    "UTF-8" ∈ MODELLED_ENCODINGS ∧
    (processReceiveBuffer { initState with receive_buffer := [0x20, 0x09] }).events = [] :=
  ⟨by decide, by decide,
    (whitespace_only_flush_silent { initState with receive_buffer := [0x20, 0x09] }
      (by decide) rfl (by decide) (by decide)).2.1 rfl⟩

/-- Helper invariant for the Relay: chunks taken plus chunks still pending
never exceed chunks offered, and the queue stays within capacity. -/
def RelayInv (s : RelayState) : Prop :=
  s.taken + s.q.length ≤ s.offered ∧ s.q.length ≤ RELAY_CAPACITY

theorem relayStep_inv {s : RelayState} (e : RelayEv) (h : RelayInv s) :
    RelayInv (relayStep s e) := by
  obtain ⟨h1, h2⟩ := h
  cases e with
  | offer c =>
    by_cases hf : s.q.length < RELAY_CAPACITY
    · refine ⟨?_, ?_⟩ <;> simp [relayStep, hf] <;> omega
    · have hq1000 : s.q.length = RELAY_CAPACITY := le_antisymm h2 (not_lt.mp hf)
      have htail : s.q.tail.length = s.q.length - 1 := List.length_tail s.q
      rw [RELAY_CAPACITY] at hq1000 hf
      refine ⟨?_, ?_⟩ <;> simp [relayStep, hf, RELAY_CAPACITY] <;> omega
  | take =>
    rcases hq : s.q with _ | ⟨a, t⟩
    · simpa [relayStep, hq] using ⟨h1, h2⟩
    · have hlen : s.q.length = t.length + 1 := by rw [hq]; rfl
      refine ⟨?_, ?_⟩ <;> simp [relayStep, hq] <;> omega

theorem relayRun_inv (evs : List RelayEv) : RelayInv (relayRun evs) := by
  have main : ∀ s, RelayInv s → RelayInv (evs.foldl relayStep s) := by
    induction evs with
    | nil => intro s h; exact h
    | cons e rest ih => intro s h; exact ih _ (relayStep_inv e h)
  exact main relayInit ⟨by simp [relayInit], by simp [relayInit, RELAY_CAPACITY]⟩

/-- C6: over any interleaving of reader offers and framer takes starting
from the fresh queue, the total number of chunks the framer has taken
never exceeds the total number offered, and the queue never exceeds its
fixed capacity of 1000; moreover a single offer evicts at most one oldest
pending chunk (and a take never evicts anything). -/
theorem relay_overflow_policy (evs : List RelayEv) :
    (relayRun evs).taken ≤ (relayRun evs).offered ∧
    (relayRun evs).q.length ≤ RELAY_CAPACITY ∧
    (∀ s : RelayState, ∀ c : List Nat,
      (relayStep s (.offer c)).evicted ≤ s.evicted + 1 ∧
      (relayStep s (.offer c)).q.length ≥ s.q.length + 1 - 1) ∧
    (∀ s : RelayState, (relayStep s .take).evicted = s.evicted) := by
  obtain ⟨h1, h2⟩ := relayRun_inv evs
  refine ⟨by omega, h2, ?_, ?_⟩
  · intro s c
    by_cases hf : s.q.length < RELAY_CAPACITY
    · refine ⟨?_, ?_⟩ <;> simp [relayStep, hf]
    · have htail : s.q.tail.length = s.q.length - 1 := List.length_tail s.q
      refine ⟨?_, ?_⟩
      · simp [relayStep, hf]
      · simp [relayStep, hf]
        omega
  · intro s
    rcases hq : s.q with _ | ⟨a, t⟩ <;> simp [relayStep, hq]

/-- Helper: `processTrace` distributes over concatenation of iteration
lists. -/
theorem processTrace_append (xs : List LoopIn) :
    ∀ (ys : List LoopIn) (st : CommState) (last : ℚ),
    processTrace st last (xs ++ ys) =
      ((processTrace (processTrace st last xs).1 (processTrace st last xs).2.1 ys).1,
       (processTrace (processTrace st last xs).1 (processTrace st last xs).2.1 ys).2.1,
       (processTrace st last xs).2.2 ++
         (processTrace (processTrace st last xs).1 (processTrace st last xs).2.1 ys).2.2) := by
  induction xs with
  | nil => intro ys st last; simp [processTrace]
  | cons i rest ih => intro ys st last; simp [processTrace, ih, List.append_assoc]

/-- Helper: as long as every timeout check comes out within the packet
timeout, the framer loop only accumulates: no packet is flushed, the
buffer grows by exactly the concatenation of the delivered chunks, and
`last_data_time` follows the last append. -/
theorem processTrace_quiet (ins : List LoopIn) :
    ∀ (st : CommState) (last : ℚ), Quiet st.packet_timeout last ins →
    processTrace st last ins =
      ({ st with receive_buffer := st.receive_buffer ++ concatChunks ins },
        lastAfterQuiet last ins, []) := by
  induction ins with
  | nil =>
    intro st last _
    simp [processTrace, concatChunks, lastAfterQuiet]
  | cons i rest ih =>
    intro st last hq
    cases i with
    | data c t1 t2 t3 =>
      obtain ⟨hle, hq2⟩ := hq
      have hnot : ¬ ((st.packet_timeout : ℚ) < t2 - t1) := not_lt.mpr hle
      have hstep : processStep st last (.data c t1 t2 t3) =
          ({ st with receive_buffer := st.receive_buffer ++ c }, t1, []) := by
        simp [processStep, hnot]
      simp only [processTrace, hstep]
      rw [ih ({ st with receive_buffer := st.receive_buffer ++ c }) t1 (by simpa using hq2)]
      simp [concatChunks, lastAfterQuiet, List.append_assoc]
    | idle t2 t3 =>
      obtain ⟨hle, hq2⟩ := hq
      have hcond : ¬ (st.receive_buffer ≠ [] ∧ st.packet_timeout < t2 - last) :=
        fun h => absurd h.2 (not_lt.mpr hle)
      have hstep : processStep st last (.idle t2 t3) = (st, last, []) := by
        simp only [processStep]
        rw [if_neg hcond]
      simp only [processTrace, hstep]
      rw [ih st last hq2]
      simp [concatChunks, lastAfterQuiet]

/-- C1: starting from an empty packet buffer, if a byte sequence is
delivered as arbitrary sub-chunks and every timeout check during the
delivery window stays within `packet_timeout` (the inter-chunk gaps are
all smaller than the timeout), then the first idle poll whose silence gap
exceeds `packet_timeout` flushes exactly one packet, whose bytes are the
concatenation of all the sub-chunks — independent of the split points. -/
theorem framing_idempotence (st : CommState) (last : ℚ) (ins : List LoopIn)
    (t2 t3 : ℚ)
    (hbuf : st.receive_buffer = [])
    (hq : Quiet st.packet_timeout last ins)
    (hne : concatChunks ins ≠ [])
    (hgap : t2 - lastAfterQuiet last ins > st.packet_timeout) :
    (processTrace st last (ins ++ [LoopIn.idle t2 t3])).2.2 = [concatChunks ins] := by
  rw [processTrace_append, processTrace_quiet ins st last hq]
  have hcond : ({ st with receive_buffer := st.receive_buffer ++ concatChunks ins }
      : CommState).receive_buffer ≠ [] ∧
      ({ st with receive_buffer := st.receive_buffer ++ concatChunks ins }
      : CommState).packet_timeout < t2 - lastAfterQuiet last ins := by
    constructor
    · simp [hbuf, hne]
    · simpa using hgap
  simp only [processTrace, processStep]
  rw [if_pos hcond]
  simp [processReceiveBuffer, hbuf, hne]

theorem framing_idempotence_witness :
    (processTrace initState 0
      [LoopIn.data [1, 2] 0 0 0,
       LoopIn.data [3] (1 / 200) (1 / 200) (1 / 200),
       LoopIn.idle 1 1]).2.2 = [[1, 2, 3]] := by
  have h := framing_idempotence initState 0
    [LoopIn.data [1, 2] 0 0 0, LoopIn.data [3] (1 / 200) (1 / 200) (1 / 200)]
    1 1 rfl
    (by refine ⟨by norm_num [initState], by norm_num [initState], trivial⟩)
    (by decide)
    (by norm_num [lastAfterQuiet, initState])
  simpa [concatChunks] using h

end SerialTool
